import Mathlib

/-!
# Verification of the term-record watcher daemon

Shallow embedding of `src/termrecord/watcher/{indexer,cleanup,exporter,server}.py`
over explicit Lean state types, together with theorems settling the frozen
claims about the daemon.

Conventions of the embedding:
* SQLite REAL timestamps and epoch seconds are modelled as `Int` (the claims
  only compare them, never divide).
* A table is a `List` of rows in rowid order; `INSERT` appends, `DELETE`
  filters, `UPDATE` maps.
* Nullable SQL columns are `Option`-typed fields.
* `aiosqlite` execution is sequential within one connection, so each Python
  coroutine becomes a pure state-passing function.
-/

namespace TermRecord

/-- `RecordingFiles` from `models/metadata.py`: relative paths of the cast,
gif and screenshot artifacts, any of which may be absent. -/
structure RecordingFiles where
  cast : Option String := none
  gif : Option String := none
  screenshot : Option String := none
  deriving Repr, DecidableEq

/-- `RecordingMetadata` from `models/metadata.py` (the `terminal` sub-object is
irrelevant to every claim and is omitted from the row it produces anyway). -/
structure RecordingMetadata where
  id : String
  atuin_id : Option String := none
  command : String
  timestamp : Int
  duration : Option Int := none
  exit_code : Option Int := none
  cwd : String
  shell : String
  user : String
  hostname : String
  files : RecordingFiles := {}
  deriving Repr, DecidableEq

/-- One row of the `recordings` table (schema in `Indexer._create_schema`).
`indexed_at` carries the value of its SQL default `strftime('%s','now')` at
the moment the row was (re)inserted. -/
structure RecordingRow where
  id : String
  atuin_id : Option String
  command : String
  timestamp : Int
  duration : Option Int
  exit_code : Option Int
  cwd : String
  shell : Option String
  user : Option String
  hostname : Option String
  cast_path : Option String
  gif_path : Option String
  screenshot_path : Option String
  meta_path : String
  indexed_at : Int
  deriving Repr, DecidableEq

/-- The row built by the `INSERT OR REPLACE` statement of
`Indexer.index_recording`: every listed column comes from the parsed
metadata, and the omitted `indexed_at` column takes its default, the current
clock second `now`. -/
def mkRow (meta : RecordingMetadata) (metaPath : String) (now : Int) :
    RecordingRow where
  id := meta.id
  atuin_id := meta.atuin_id
  command := meta.command
  timestamp := meta.timestamp
  duration := meta.duration
  exit_code := meta.exit_code
  cwd := meta.cwd
  shell := some meta.shell
  user := some meta.user
  hostname := some meta.hostname
  cast_path := meta.files.cast
  gif_path := meta.files.gif
  screenshot_path := meta.files.screenshot
  meta_path := metaPath
  indexed_at := now

/-- A row `r` conflicts with the incoming metadata when it violates the
`id` PRIMARY KEY or the `atuin_id` UNIQUE constraint; SQLite's `OR REPLACE`
deletes every such row before inserting (NULL `atuin_id` never conflicts). -/
def conflictsWith (meta : RecordingMetadata) (r : RecordingRow) : Bool :=
  r.id = meta.id || (meta.atuin_id.isSome && r.atuin_id = meta.atuin_id)

/-- `Indexer.index_recording`, after the metadata file at `metaPath` has been
read and parsed to `meta`: `INSERT OR REPLACE INTO recordings (...)` listing
every column except `indexed_at`, which therefore takes its schema default
`strftime('%s','now')` — the clock second `now` of this call. -/
def index_recording (meta : RecordingMetadata) (metaPath : String)
    (now : Int) (db : List RecordingRow) : List RecordingRow :=
  db.filter (fun r => !conflictsWith meta r) ++ [mkRow meta metaPath now]

/-- `Indexer.get_by_id`: `SELECT * FROM recordings WHERE id = ?` then
`fetchone` (at most one row can match the primary key). -/
def get_by_id (rid : String) (db : List RecordingRow) : Option RecordingRow :=
  db.find? (fun r => r.id = rid)

/-- `Indexer.get_by_atuin_id`: `SELECT * FROM recordings WHERE atuin_id = ?`
then `fetchone`; rows whose `atuin_id` is NULL never match. -/
def get_by_atuin_id (aid : String) (db : List RecordingRow) :
    Option RecordingRow :=
  db.find? (fun r => r.atuin_id = some aid)

/-- `Indexer.delete_recording`: `DELETE FROM recordings WHERE id = ?`,
returning whether a row was removed together with the new table. -/
def delete_recording (rid : String) (db : List RecordingRow) :
    Bool × List RecordingRow :=
  (db.any (fun r => r.id = rid), db.filter (fun r => !(r.id = rid)))

theorem conflictsWith_of_id_eq (meta : RecordingMetadata)
    (r : RecordingRow) (h : r.id = meta.id) : conflictsWith meta r = true := by
  simp [conflictsWith, h]

theorem filter_noConflict_id (meta : RecordingMetadata)
    (db : List RecordingRow) :
    (db.filter (fun r => !conflictsWith meta r)).filter
      (fun r => r.id = meta.id) = [] := by
  rw [List.filter_filter]
  apply List.filter_eq_nil_iff.mpr
  intro r _
  by_cases h : r.id = meta.id
  · simp [conflictsWith_of_id_eq meta r h]
  · simp [h]

/-- Re-indexing leaves exactly one row for the identifier, and that row's
`indexed_at` is the clock value of the *second* call. -/
theorem index_recording_twice (meta : RecordingMetadata) (p : String)
    (t₁ t₂ : Int) (db : List RecordingRow) :
    (index_recording meta p t₂ (index_recording meta p t₁ db)).filter
        (fun r => r.id = meta.id) = [mkRow meta p t₂] := by
  unfold index_recording
  rw [List.filter_append, filter_noConflict_id]
  simp [mkRow]

/-- **C1, counterexample.** Indexing one concrete metadata file at clock
second 100 and re-indexing it at clock second 200 leaves one row whose
`indexed_at` is 200, not the first insertion's 100: `INSERT OR REPLACE`
re-evaluates the column default, so `indexed_at` does not survive
re-indexing. -/
theorem c1_counterexample :
    let meta : RecordingMetadata :=
      { id := "rec1", command := "ls", timestamp := 5, cwd := "/home/a"
        shell := "zsh", user := "u", hostname := "h" }
    ((index_recording meta "m.json" 200
        (index_recording meta "m.json" 100 [])).filter
          (fun r => r.id = "rec1")).map (fun r => r.indexed_at) = [200] := by
  decide

/-- **C1 (amended).** Indexing a metadata file and then re-indexing it yields
exactly one row for that identifier, with every field (including
`indexed_at`) taken from the second call: `indexed_at` is reset to the
re-indexing time rather than keeping the first insertion's value. -/
theorem c1_reindex_single_row_fresh_indexed_at (meta : RecordingMetadata)
    (p : String) (t₁ t₂ : Int) (db : List RecordingRow) :
    ((index_recording meta p t₂ (index_recording meta p t₁ db)).filter
        (fun r => r.id = meta.id)).length = 1 ∧
    ∀ r ∈ (index_recording meta p t₂
        (index_recording meta p t₁ db)).filter (fun r => r.id = meta.id),
      r.indexed_at = t₂ := by
  rw [index_recording_twice]
  constructor
  · rfl
  · intro r hr
    simp only [List.mem_singleton] at hr
    subst hr
    rfl

/-! ## `list_recordings` and SQLite `LIKE` -/

/-- SQLite's default `LIKE` is case-insensitive for the ASCII range only:
upper-case `A`–`Z` fold to lower case, all other characters compare as-is. -/
def foldAscii (c : Char) : Char :=
  if 'A' ≤ c ∧ c ≤ 'Z' then Char.ofNat (c.toNat + 32) else c

/-- All suffixes of a character list (the list itself included). -/
def charTails : List Char → List (List Char)
  | [] => [[]]
  | c :: cs => (c :: cs) :: charTails cs

/-- SQLite `LIKE` pattern matching as used by the `cwd LIKE ?` clause of
`Indexer.list_recordings`: `%` matches any character sequence, `_` matches
exactly one character, and every other pattern character matches
ASCII-case-insensitively. No `ESCAPE` clause is supplied in the source, so
`%` and `_` inside the bound value act as wildcards. -/
def sqlLike : List Char → List Char → Bool
  | [], s => s.isEmpty
  | '%' :: ps, s => (charTails s).any (fun t => sqlLike ps t)
  | '_' :: ps, s =>
      match s with
      | [] => false
      | _ :: s' => sqlLike ps s'
  | p :: ps, s =>
      match s with
      | [] => false
      | c :: s' => foldAscii p = foldAscii c && sqlLike ps s'

/-- Literal (byte-for-byte) string-prefix test, the relation the spec asserts
for the `cwd` filter. -/
def litPrefixOf : List Char → List Char → Bool
  | [], _ => true
  | _ :: _, [] => false
  | p :: ps, c :: cs => p = c && litPrefixOf ps cs

/-- The `WHERE` clause of `Indexer.list_recordings`: `failed_only` adds
`exit_code != 0` (NULL `exit_code` rows never satisfy it), and a truthy
`cwd` adds `cwd LIKE ?` with the bound value `f"{cwd}%"`. Python's
`if cwd:` means `None` and the empty string both disable the clause. -/
def matchesFilters (failed_only : Bool) (cw : Option String)
    (r : RecordingRow) : Bool :=
  (!failed_only || (match r.exit_code with
    | some c => c != 0
    | none => false))
  && (match cw with
    | none => true
    | some p => p == "" || sqlLike (p ++ "%").data r.cwd.data)

/-- Timestamp-descending comparison used to model `ORDER BY timestamp DESC`. -/
def tsDesc (a b : RecordingRow) : Prop := b.timestamp ≤ a.timestamp

instance : DecidableRel tsDesc := fun _ _ => Int.decLe _ _

instance : IsTotal RecordingRow tsDesc :=
  ⟨fun a b => le_total b.timestamp a.timestamp⟩

instance : IsTrans RecordingRow tsDesc :=
  ⟨fun _ _ _ h₁ h₂ => le_trans h₂ h₁⟩

/-- `Indexer.list_recordings`: filter, `ORDER BY timestamp DESC`, then
`LIMIT ? OFFSET ?`. SQLite does not promise a stable order among equal
timestamps; the embedding resolves ties by a stable insertion sort, which
every claim below is insensitive to. -/
def list_recordings (db : List RecordingRow) (limit offset : Nat)
    (failed_only : Bool) (cw : Option String) : List RecordingRow :=
  ((List.insertionSort tsDesc
      (db.filter (matchesFilters failed_only cw))).drop offset).take limit

/-- A concrete indexed recording used by several counterexamples and
witnesses below; its working directory is `/aXb`. -/
def rowAXB : RecordingRow where
  id := "r1"
  atuin_id := none
  command := "make"
  timestamp := 10
  duration := none
  exit_code := some 0
  cwd := "/aXb"
  shell := some "zsh"
  user := some "u"
  hostname := some "h"
  cast_path := some "r1.cast"
  gif_path := none
  screenshot_path := none
  meta_path := "r1.json"
  indexed_at := 7

/-- **C5, counterexample.** With the stored working directory `/aXb` and the
filter value `/a_b`, `list_recordings` returns the row even though `/aXb`
does not start with the literal string `/a_b`: the unescaped `LIKE` treats
`_` as a single-character wildcard, so the filter is not a literal prefix
match. -/
theorem c5_counterexample :
    list_recordings [rowAXB] 50 0 false (some "/a_b") = [rowAXB] ∧
      litPrefixOf "/a_b".data rowAXB.cwd.data = false := by
  constructor
  · rfl
  · rfl

/-- **C5 (amended).** For every non-empty filter value `p`, `list_recordings`
with `cwd = p` (window large enough to hold everything) returns exactly the
recordings whose working directory matches the SQL `LIKE` pattern `p ++ "%"`
— ASCII-case-insensitively and with `%`/`_` in `p` acting as wildcards —
rather than the recordings with literal prefix `p`. -/
theorem c5_like_not_literal (db : List RecordingRow) (p : String)
    (hp : p ≠ "") (r : RecordingRow) :
    r ∈ list_recordings db db.length 0 false (some p) ↔
      r ∈ db ∧ sqlLike (p ++ "%").data r.cwd.data = true := by
  unfold list_recordings
  rw [List.drop_zero, List.take_of_length_le]
  · rw [List.mem_insertionSort, List.mem_filter]
    unfold matchesFilters
    have hp' : (p == "") = false := by
      simpa using hp
    simp [hp']
  · rw [(List.perm_insertionSort tsDesc _).length_eq]
    exact List.length_filter_le _ _

/-- **C5 witness** for `c5_like_not_literal` at a concrete database and
filter value. -/
theorem c5_witness :
    ("/a" ≠ "") ∧
      (rowAXB ∈ list_recordings [rowAXB] [rowAXB].length 0 false (some "/a") ↔
        rowAXB ∈ [rowAXB] ∧ sqlLike ("/a" ++ "%").data rowAXB.cwd.data = true) :=
  ⟨by decide, c5_like_not_literal [rowAXB] "/a" (by decide) rowAXB⟩

/-- **C7.** When all indexed timestamps are pairwise distinct,
`list_recordings` with no filters returns rows in strictly descending
timestamp order within the `limit`/`offset` window, and only rows of the
database. -/
theorem c7_list_strictly_descending (db : List RecordingRow)
    (limit offset : Nat) (h : (db.map (fun r => r.timestamp)).Nodup) :
    (list_recordings db limit offset false none).Pairwise
        (fun a b => b.timestamp < a.timestamp) ∧
      ∀ r ∈ list_recordings db limit offset false none, r ∈ db := by
  have hfilter : db.filter (matchesFilters false none) = db :=
    List.filter_eq_self.mpr (fun a _ => rfl)
  have hsub : List.Sublist (list_recordings db limit offset false none)
      (List.insertionSort tsDesc db) := by
    unfold list_recordings
    rw [hfilter]
    exact (List.take_sublist _ _).trans (List.drop_sublist _ _)
  constructor
  · have hsorted : (List.insertionSort tsDesc db).Pairwise tsDesc :=
      List.sorted_insertionSort tsDesc db
    have hperm : List.Perm (List.insertionSort tsDesc db) db :=
      List.perm_insertionSort tsDesc db
    have hnd : ((List.insertionSort tsDesc db).map
        (fun r => r.timestamp)).Nodup :=
      ((hperm.map (fun r => r.timestamp)).nodup_iff).mpr h
    have hne : (List.insertionSort tsDesc db).Pairwise
        (fun a b => a.timestamp ≠ b.timestamp) :=
      List.pairwise_map.mp hnd
    have hstrict : (List.insertionSort tsDesc db).Pairwise
        (fun a b => b.timestamp < a.timestamp) :=
      (hsorted.and hne).imp (fun hab => lt_of_le_of_ne hab.1 (Ne.symm hab.2))
    exact hstrict.sublist hsub
  · intro r hr
    have : r ∈ List.insertionSort tsDesc db := hsub.mem hr
    rwa [List.mem_insertionSort] at this

/-- **C7 witness** at a concrete two-row database with distinct
timestamps. -/
theorem c7_witness :
    (([rowAXB, { rowAXB with id := "r2", timestamp := 3 }].map
        (fun r => r.timestamp)).Nodup) ∧
      ((list_recordings [rowAXB, { rowAXB with id := "r2", timestamp := 3 }]
            50 0 false none).Pairwise
          (fun a b => b.timestamp < a.timestamp) ∧
        ∀ r ∈ list_recordings
            [rowAXB, { rowAXB with id := "r2", timestamp := 3 }] 50 0
            false none,
          r ∈ [rowAXB, { rowAXB with id := "r2", timestamp := 3 }]) :=
  ⟨by decide,
    c7_list_strictly_descending
      [rowAXB, { rowAXB with id := "r2", timestamp := 3 }] 50 0 (by decide)⟩

/-! ## Retention cleanup (`cleanup.py`) -/

/-- Timestamp-ascending comparison modelling `ORDER BY timestamp ASC`. -/
def tsAsc (a b : RecordingRow) : Prop := a.timestamp ≤ b.timestamp

instance : DecidableRel tsAsc := fun _ _ => Int.decLe _ _

instance : IsTotal RecordingRow tsAsc :=
  ⟨fun a b => le_total a.timestamp b.timestamp⟩

instance : IsTrans RecordingRow tsAsc :=
  ⟨fun _ _ _ h₁ h₂ => le_trans h₁ h₂⟩

/-- Reversed-name helper for `withSuffix`: given the reversed characters of a
file name, return the reversed stem (the part before the last dot) when the
name has a suffix, i.e. a dot that is not its first character. -/
def revStemAux : List Char → Option (List Char)
  | [] => none
  | '.' :: rest => if rest.isEmpty then none else some rest
  | _ :: rest => revStemAux rest

/-- Python `pathlib.Path.with_suffix`: replace the suffix of the final path
component (everything from its last dot on, if that dot is not the
component's first character) with `suffix`. -/
def withSuffix (path suffix : String) : String :=
  let revcs := path.data.reverse
  let nameRev := revcs.takeWhile (fun c => c ≠ '/')
  let dirRev := revcs.dropWhile (fun c => c ≠ '/')
  let stem :=
    match revStemAux nameRev with
    | some r => r.reverse
    | none => nameRev.reverse
  ⟨dirRev.reverse ++ stem ++ suffix.data⟩

/-- The filesystem under `storage_dir/recordings`, modelled as an
association list from file path to byte size. -/
def Fs : Type := List (String × Nat)

/-- `Path.exists` / `Path.stat().st_size`: size of a file if present. -/
def fsStat (fs : Fs) (p : String) : Option Nat :=
  ((fs : List (String × Nat)).find? (fun e => e.1 = p)).map (fun e => e.2)

/-- `Path.unlink`: remove a file. -/
def fsUnlink (fs : Fs) (p : String) : Fs :=
  (fs : List (String × Nat)).filter (fun e => !(e.1 = p))

/-- Joint state of the recordings table and the on-disk recordings tree. -/
structure SysState where
  db : List RecordingRow
  fs : Fs

/-- One `if path.exists(): freed += stat; unlink` step of
`CleanupScheduler._delete_recording_files` (a missing file is silently
skipped). -/
def removeOne (p : String) (acc : Nat × Fs) : Nat × Fs :=
  match fsStat acc.2 p with
  | some sz => (acc.1 + sz, fsUnlink acc.2 p)
  | none => acc

/-- `CleanupScheduler._delete_recording_files`: unlink the metadata file and
its `.cast`/`.gif`/`.png` siblings (derived by `with_suffix`), summing the
sizes of those that existed, then delete the index row; returns the freed
byte count with the new state. -/
def delete_recording_files (rid metaPath : String) (st : SysState) :
    Nat × SysState :=
  let s1 := removeOne metaPath (0, st.fs)
  let s2 := removeOne (withSuffix metaPath ".cast") s1
  let s3 := removeOne (withSuffix metaPath ".gif") s2
  let s4 := removeOne (withSuffix metaPath ".png") s3
  (s4.1, { db := (delete_recording rid st.db).2, fs := s4.2 })

/-- `CleanupScheduler._calculate_storage_size`: total size of the files of
the recordings tree. -/
def calculate_storage_size (fs : Fs) : Nat :=
  ((fs : List (String × Nat)).map (fun e => e.2)).sum

/-- The shared body of cleanup passes 1 and 2: for each candidate
`(id, meta_path)`, delete files and row unless `dry_run`; `freed_bytes`
accumulates only when not `dry_run`. -/
def passDelete (dryRun : Bool) : List (String × String) → Nat × SysState →
    Nat × SysState
  | [], acc => acc
  | (rid, mp) :: rest, (freed, st) =>
      if dryRun then passDelete dryRun rest (freed, st)
      else
        let fs' := delete_recording_files rid mp st
        passDelete dryRun rest (freed + fs'.1, fs'.2)

/-- Cleanup pass 3 body: walk candidates oldest-first, stopping as soon as
the running size is at or below budget; the running size is decremented by
the freed bytes only when not `dry_run` (so a dry run never stops early). -/
def sizePass (dryRun : Bool) (maxBytes : Int) :
    List RecordingRow → Int × Nat × Nat × SysState →
      Int × Nat × Nat × SysState
  | [], acc => acc
  | r :: rest, (size, freed, count, st) =>
      if size ≤ maxBytes then (size, freed, count, st)
      else if dryRun then
        sizePass dryRun maxBytes rest (size, freed, count + 1, st)
      else
        let fs' := delete_recording_files r.id r.meta_path st
        sizePass dryRun maxBytes rest
          (size - fs'.1, freed + fs'.1, count + 1, fs'.2)

/-- The retention knobs read by `run_cleanup` (`max_size_gb` is a whole
number of gigabytes here; the claims never exercise fractional budgets). -/
structure RetentionCfg where
  max_age_days : Int
  max_count : Nat
  max_size_gb : Nat

/-- The totals dictionary returned by `run_cleanup`. -/
structure CleanupTotals where
  deleted_count : Nat
  freed_bytes : Nat
  deriving Repr, DecidableEq

/-- `CleanupScheduler.run_cleanup`: age pass (timestamp older than
`now - max_age_days` in seconds), count pass (rows beyond the newest
`max_count`, via `ORDER BY timestamp DESC LIMIT -1 OFFSET max_count`), and
size pass (oldest-first while the running total exceeds the byte budget).
`deleted_count` increments for every candidate regardless of `dry_run`;
files and rows are touched, and `freed_bytes` accumulated, only when not
`dry_run`. -/
def run_cleanup (cfg : RetentionCfg) (now : Int) (dryRun : Bool)
    (st : SysState) : CleanupTotals × SysState :=
  let cutoff := now - cfg.max_age_days * 86400
  let cands1 := (st.db.filter (fun r => r.timestamp < cutoff)).map
    (fun r => (r.id, r.meta_path))
  let p1 := passDelete dryRun cands1 (0, st)
  let cands2 := ((List.insertionSort tsDesc p1.2.db).drop cfg.max_count).map
    (fun r => (r.id, r.meta_path))
  let p2 := passDelete dryRun cands2 (p1.1, p1.2)
  let count12 := cands1.length + cands2.length
  let maxBytes : Int := (cfg.max_size_gb : Int) * 1024 * 1024 * 1024
  let curSize : Int := (calculate_storage_size p2.2.fs : Int)
  if curSize > maxBytes then
    let p3 := sizePass dryRun maxBytes (List.insertionSort tsAsc p2.2.db)
      (curSize, p2.1, count12, p2.2)
    ({ deleted_count := p3.2.2.1, freed_bytes := p3.2.1 }, p3.2.2.2)
  else
    ({ deleted_count := count12, freed_bytes := p2.1 }, p2.2)

theorem passDelete_dry (cands : List (String × String)) :
    ∀ acc : Nat × SysState, passDelete true cands acc = acc := by
  induction cands with
  | nil =>
      intro acc
      rfl
  | cons c rest ih =>
      intro acc
      obtain ⟨rid, mp⟩ := c
      obtain ⟨freed, st⟩ := acc
      simpa [passDelete] using ih (freed, st)

theorem sizePass_dry (maxBytes : Int) (l : List RecordingRow) (size : Int)
    (freed count : Nat) (st : SysState) :
    ∃ n, sizePass true maxBytes l (size, freed, count, st) =
      (size, freed, count + n, st) := by
  induction l generalizing count with
  | nil => exact ⟨0, rfl⟩
  | cons r rest ih =>
      by_cases h : size ≤ maxBytes
      · exact ⟨0, by simp [sizePass, h]⟩
      · obtain ⟨n, hn⟩ := ih (count + 1)
        have hstep : sizePass true maxBytes (r :: rest)
            (size, freed, count, st) =
            sizePass true maxBytes rest (size, freed, count + 1, st) := by
          simp [sizePass, h]
        refine ⟨n + 1, ?_⟩
        rw [hstep, hn]
        have harith : count + 1 + n = count + (n + 1) := by omega
        rw [harith]

/-- A recording row old enough for the age pass, whose metadata file
`old.json` occupies 5 bytes on disk. -/
def rowOld : RecordingRow :=
  { rowAXB with id := "old", timestamp := 0, meta_path := "old.json" }

/-- Retention configuration for the cleanup counterexample: 30-day age
limit, generous count and size budgets. -/
def cfgEx : RetentionCfg where
  max_age_days := 30
  max_count := 100
  max_size_gb := 10

/-- Store state for the cleanup counterexample: one stale recording and its
5-byte metadata file. -/
def stEx : SysState where
  db := [rowOld]
  fs := [("old.json", 5)]

/-- **C2, counterexample.** On a store with one over-age recording whose
metadata file occupies 5 bytes, `run_cleanup` with `dry_run=false` reports
`freed_bytes = 5` but with `dry_run=true` reports `freed_bytes = 0`: the
dry run accumulates `freed_bytes` only inside the `if not dry_run` branch,
so its byte total never matches a wet run that frees anything. -/
theorem c2_counterexample :
    (run_cleanup cfgEx 8640000 true stEx).1.freed_bytes = 0 ∧
      (run_cleanup cfgEx 8640000 false stEx).1.freed_bytes = 5 ∧
      (run_cleanup cfgEx 8640000 true stEx).1.freed_bytes ≠
        (run_cleanup cfgEx 8640000 false stEx).1.freed_bytes := by
  refine ⟨?_, ?_, ?_⟩ <;> decide

/-- **C2 (amended).** A dry-run cleanup leaves the recordings table and the
filesystem completely unchanged, and always reports `freed_bytes = 0`
(bytes are summed only when files are actually deleted); its
`deleted_count` is computed against the unmodified store, so neither total
is in general the wet-run total. -/
theorem c2_dry_run_unchanged_zero_bytes (cfg : RetentionCfg) (now : Int)
    (st : SysState) :
    (run_cleanup cfg now true st).2 = st ∧
      (run_cleanup cfg now true st).1.freed_bytes = 0 := by
  have hfreed : ∀ (mb : Int) (l : List RecordingRow) (size : Int)
      (freed count : Nat) (s : SysState),
      (sizePass true mb l (size, freed, count, s)).2.1 = freed := by
    intro mb l size freed count s
    obtain ⟨n, hn⟩ := sizePass_dry mb l size freed count s
    rw [hn]
  have hstate : ∀ (mb : Int) (l : List RecordingRow) (size : Int)
      (freed count : Nat) (s : SysState),
      (sizePass true mb l (size, freed, count, s)).2.2.2 = s := by
    intro mb l size freed count s
    obtain ⟨n, hn⟩ := sizePass_dry mb l size freed count s
    rw [hn]
  unfold run_cleanup
  simp only [passDelete_dry]
  by_cases h : (calculate_storage_size st.fs : Int) >
      (cfg.max_size_gb : Int) * 1024 * 1024 * 1024
  · simp only [if_pos h, hfreed, hstate]
    exact ⟨trivial, trivial⟩
  · simp only [if_neg h]
    exact ⟨trivial, trivial⟩

/-! ## Export queue (`exporter.py`) -/

/-- One row of the `export_queue` table (schema in
`Indexer._create_schema`): status is one of the strings `pending`,
`processing`, `done`, `failed`; `completed_at` and `error` are NULL until
set. -/
structure ExportJob where
  id : Nat
  recording_id : String
  export_type : String
  status : String
  created_at : Int
  completed_at : Option Int
  error : Option String
  deriving Repr, DecidableEq

/-- Joint state of the `recordings` and `export_queue` tables, the state the
export worker reads and writes. -/
structure QState where
  db : List RecordingRow
  queue : List ExportJob
  deriving Repr, DecidableEq

/-- The `WHERE`/`JOIN` condition of the worker's claim query in
`ExportQueue._process_next`: `eq.status = 'pending'` and
`JOIN recordings r ON eq.recording_id = r.id`. -/
def joinedPending (st : QState) (j : ExportJob) : Bool :=
  j.status = "pending" && st.db.any (fun r => r.id = j.recording_id)

/-- Creation-time ordering modelling `ORDER BY eq.created_at`. -/
def caAsc (a b : ExportJob) : Prop := a.created_at ≤ b.created_at

instance : DecidableRel caAsc := fun _ _ => Int.decLe _ _

instance : IsTotal ExportJob caAsc :=
  ⟨fun a b => le_total a.created_at b.created_at⟩

instance : IsTrans ExportJob caAsc :=
  ⟨fun _ _ _ h₁ h₂ => le_trans h₁ h₂⟩

/-- The claim query of `_process_next`: pending jobs joined against
`recordings`, `ORDER BY eq.created_at LIMIT 1` (SQLite breaks
`created_at` ties arbitrarily; the embedding breaks them stably). -/
def selectNext (st : QState) : Option ExportJob :=
  (List.insertionSort caAsc (st.queue.filter (joinedPending st))).head?

/-- `UPDATE export_queue SET ... WHERE id = ?`: rewrite the rows whose `id`
matches through `g` (every such SQL update preserves `id`). -/
def updRow (jid : Nat) (g : ExportJob → ExportJob) (q : List ExportJob) :
    List ExportJob :=
  q.map (fun k => if k.id = jid then g k else k)

/-- `UPDATE export_queue SET status = 'processing' WHERE id = ?`. -/
def markProcessing (jid : Nat) (q : List ExportJob) : List ExportJob :=
  updRow jid (fun k => { k with status := "processing" }) q

/-- `UPDATE export_queue SET status = 'done',
completed_at = strftime('%s','now') WHERE id = ?`. -/
def markDone (now : Int) (jid : Nat) (q : List ExportJob) : List ExportJob :=
  updRow jid (fun k => { k with status := "done", completed_at := some now }) q

/-- `UPDATE export_queue SET status = 'failed', error = ? WHERE id = ?` —
note the source sets no `completed_at` here. -/
def markFailed (msg : String) (jid : Nat) (q : List ExportJob) :
    List ExportJob :=
  updRow jid (fun k => { k with status := "failed", error := some msg }) q

/-- The claim step of `_process_next`: the selected job is marked
`processing` (and committed) before rendering; absent marker when the claim
query returns no row. -/
def claimNext (st : QState) : Option ExportJob × QState :=
  match selectNext st with
  | none => (none, st)
  | some j => (some j, { st with queue := markProcessing j.id st.queue })

/-- Outcome of the external `agg` subprocess: exit status 0, or a nonzero
exit with the captured stderr text. The subprocess is outside this
repository, so its outcome is a parameter of the embedding. -/
inductive AggResult where
  | exit0 : AggResult
  | exitErr (stderr : String) : AggResult
  deriving Repr, DecidableEq

/-- `UPDATE recordings SET gif_path = ? WHERE id = ?` performed by
`_generate_gif` after a successful render. -/
def updateGifDb (rid gifRel : String) (db : List RecordingRow) :
    List RecordingRow :=
  db.map (fun r => if r.id = rid then { r with gif_path := some gifRel }
    else r)

/-- `ExportQueue._generate_gif`: runs `agg` on the cast file; a nonzero exit
raises `RuntimeError(f"agg failed: {stderr}")`; on success the recording's
`gif_path` is set to the cast path with its suffix replaced by `.gif`
(`with_suffix(".gif")` then `relative_to` the recordings root). -/
def generate_gif (agg : AggResult) (rid cast_path : String)
    (db : List RecordingRow) : Except String (List RecordingRow) :=
  match agg with
  | .exitErr stderr => .error ("agg failed: " ++ stderr)
  | .exit0 => .ok (updateGifDb rid (withSuffix cast_path ".gif") db)

/-- The `cast_path` column fetched by the claim query for a recording id. -/
def castOf (st : QState) (rid : String) : Option String :=
  (st.db.find? (fun r => r.id = rid)).bind (fun r => r.cast_path)

/-- CPython's `TypeError` text raised by `self.storage_dir / "recordings" /
cast_path` when the fetched `cast_path` is NULL; like every exception in the
job body it is caught and stored as the job's error. -/
def noneCastMsg : String :=
  "unsupported operand type(s) for /: 'PosixPath' and 'NoneType'"

/-- `ExportQueue._process_next` for one worker cycle: claim the oldest
pending joined job (no-op when none); for a `gif` job run the render and on
success update the recording then mark the job done, on any exception mark
it failed with `str(e)`; for any other job kind, mark it done without
rendering. `now` is the clock second `strftime('%s','now')` of the cycle. -/
def processNext (agg : AggResult) (now : Int) (st : QState) : QState :=
  match claimNext st with
  | (none, _) => st
  | (some j, st₁) =>
      if j.export_type = "gif" then
        match castOf st j.recording_id with
        | some cp =>
            match generate_gif agg j.recording_id cp st₁.db with
            | .ok db' => { db := db', queue := markDone now j.id st₁.queue }
            | .error msg =>
                { st₁ with queue := markFailed msg j.id st₁.queue }
        | none => { st₁ with queue := markFailed noneCastMsg j.id st₁.queue }
      else
        { st₁ with queue := markDone now j.id st₁.queue }

/-- A sequence of worker cycles, each with its own external render outcome
and clock value. -/
def runCycles : List (AggResult × Int) → QState → QState
  | [], st => st
  | (a, t) :: rest, st => runCycles rest (processNext a t st)

theorem updRow_updRow (jid : Nat) (g₁ g₂ : ExportJob → ExportJob)
    (hg : ∀ k, (g₁ k).id = k.id) (q : List ExportJob) :
    updRow jid g₂ (updRow jid g₁ q) = updRow jid (fun k => g₂ (g₁ k)) q := by
  unfold updRow
  rw [List.map_map]
  apply List.map_congr_left
  intro k _
  by_cases h : k.id = jid
  · simp [h, hg k]
  · simp [h]

theorem markDone_markProcessing (now : Int) (jid : Nat)
    (q : List ExportJob) :
    markDone now jid (markProcessing jid q) =
      updRow jid
        (fun k => { k with status := "done", completed_at := some now }) q := by
  unfold markDone markProcessing
  exact updRow_updRow jid (fun k => { k with status := "processing" })
    (fun k => { k with status := "done", completed_at := some now })
    (fun _ => rfl) q

theorem markFailed_markProcessing (msg : String) (jid : Nat)
    (q : List ExportJob) :
    markFailed msg jid (markProcessing jid q) =
      updRow jid
        (fun k => { k with status := "failed", error := some msg }) q := by
  unfold markFailed markProcessing
  exact updRow_updRow jid (fun k => { k with status := "processing" })
    (fun k => { k with status := "failed", error := some msg })
    (fun _ => rfl) q

/-- A pending gif job whose recording `r1` exists (`rowAXB`). -/
def jobA : ExportJob where
  id := 1
  recording_id := "r1"
  export_type := "gif"
  status := "pending"
  created_at := 5
  completed_at := none
  error := none

/-- A pending job referencing a recording id absent from the table. -/
def jobOrphan : ExportJob where
  id := 7
  recording_id := "ghost"
  export_type := "gif"
  status := "pending"
  created_at := 1
  completed_at := none
  error := none

theorem claimNext_fst (st : QState) : (claimNext st).1 = selectNext st := by
  unfold claimNext
  cases selectNext st <;> rfl

theorem claimNext_eq_of_selectNext (st : QState) (j : ExportJob)
    (hsel : selectNext st = some j) :
    claimNext st = (some j, { st with queue := markProcessing j.id st.queue }) := by
  unfold claimNext
  rw [hsel]

/-- **C3, counterexample.** A queue holding one pending job whose recording
id matches no row of the recordings table: the claim step returns the
absent marker and changes nothing, even though a pending job exists — the
claim query's `JOIN recordings` silently skips orphaned pending jobs. -/
theorem c3_counterexample :
    jobOrphan ∈ (QState.mk [] [jobOrphan]).queue ∧
      jobOrphan.status = "pending" ∧
      (claimNext (QState.mk [] [jobOrphan])).1 = none ∧
      (claimNext (QState.mk [] [jobOrphan])).2 = QState.mk [] [jobOrphan] := by
  refine ⟨?_, ?_, ?_, ?_⟩ <;> decide

/-- **C3 (amended).** Whenever some pending job joins against an existing
recording, the claim step selects a pending joined job with the earliest
creation time and, in the same step, marks it `processing`; pending jobs
whose recording id matches no recordings row are skipped, and only when no
pending job joins does the step return the absent marker. -/
theorem c3_claim_fifo_joined (st : QState)
    (h : st.queue.any (joinedPending st) = true) :
    ∃ k, (claimNext st).1 = some k ∧ k ∈ st.queue ∧
      joinedPending st k = true ∧
      (∀ j ∈ st.queue, joinedPending st j = true →
        k.created_at ≤ j.created_at) ∧
      (claimNext st).2 = { st with queue := markProcessing k.id st.queue } := by
  obtain ⟨j₀, hj₀, hpj₀⟩ := List.any_eq_true.mp h
  have hj₀l : j₀ ∈ st.queue.filter (joinedPending st) :=
    List.mem_filter.mpr ⟨hj₀, hpj₀⟩
  obtain ⟨k, rest, hk⟩ : ∃ k rest,
      List.insertionSort caAsc (st.queue.filter (joinedPending st)) =
        k :: rest := by
    cases hsort : List.insertionSort caAsc
        (st.queue.filter (joinedPending st)) with
    | nil =>
        exfalso
        have : j₀ ∈ List.insertionSort caAsc
            (st.queue.filter (joinedPending st)) :=
          (List.mem_insertionSort caAsc).mpr hj₀l
        rw [hsort] at this
        exact (List.not_mem_nil j₀) this
    | cons a t => exact ⟨a, t, rfl⟩
  have hsel : selectNext st = some k := by
    unfold selectNext
    rw [hk]
    rfl
  have hkmem : k ∈ st.queue.filter (joinedPending st) := by
    have : k ∈ List.insertionSort caAsc
        (st.queue.filter (joinedPending st)) := by
      rw [hk]
      exact List.mem_cons_self k rest
    exact (List.mem_insertionSort caAsc).mp this
  have hsorted := List.sorted_insertionSort caAsc
    (st.queue.filter (joinedPending st))
  rw [hk] at hsorted
  refine ⟨k, ?_, (List.mem_filter.mp hkmem).1, (List.mem_filter.mp hkmem).2,
    ?_, ?_⟩
  · rw [claimNext_fst, hsel]
  · intro j hj hpj
    have hjl : j ∈ st.queue.filter (joinedPending st) :=
      List.mem_filter.mpr ⟨hj, hpj⟩
    have : j ∈ k :: rest := by
      rw [← hk]
      exact (List.mem_insertionSort caAsc).mpr hjl
    rcases List.mem_cons.mp this with hjk | hjrest
    · rw [hjk]
    · exact List.rel_of_sorted_cons hsorted j hjrest
  · rw [claimNext_eq_of_selectNext st k hsel]

/-- **C3 witness** at a one-job queue whose recording exists. -/
theorem c3_witness :
    ((QState.mk [rowAXB] [jobA]).queue.any
        (joinedPending (QState.mk [rowAXB] [jobA])) = true) ∧
      (∃ k, (claimNext (QState.mk [rowAXB] [jobA])).1 = some k ∧
        k ∈ (QState.mk [rowAXB] [jobA]).queue ∧
        joinedPending (QState.mk [rowAXB] [jobA]) k = true ∧
        (∀ j ∈ (QState.mk [rowAXB] [jobA]).queue,
          joinedPending (QState.mk [rowAXB] [jobA]) j = true →
            k.created_at ≤ j.created_at) ∧
        (claimNext (QState.mk [rowAXB] [jobA])).2 =
          { (QState.mk [rowAXB] [jobA]) with
              queue := markProcessing k.id (QState.mk [rowAXB] [jobA]).queue }) :=
  ⟨by decide, c3_claim_fifo_joined (QState.mk [rowAXB] [jobA]) (by decide)⟩

/-- **C4, counterexample.** One worker cycle on a pending gif job whose
render fails (`agg` exits nonzero with stderr `boom`): the job ends
`failed` with error text `agg failed: boom`, but its `completed_at` is
still NULL — the failure branch's `UPDATE` sets only `status` and `error`,
so a failed job does not get a completion time. -/
theorem c4_counterexample :
    ((processNext (AggResult.exitErr "boom") 999
        (QState.mk [rowAXB] [jobA])).queue.map
          (fun k => (k.status, k.completed_at, k.error)) =
        [("failed", none, some "agg failed: boom")]) ∧
      (processNext (AggResult.exitErr "boom") 999
          (QState.mk [rowAXB] [jobA])).db = [rowAXB] := by
  refine ⟨?_, ?_⟩ <;> decide

/-- **C4 (amended).** In a cycle whose external render fails with stderr
`m`, the claimed gif job is marked `failed` with error text
`agg failed: m` (non-empty), its `completed_at` is left untouched (a
completion time is set only on the `done` path), every other job is
unchanged, and the recordings table — in particular the owning recording's
artifact path — is unchanged. -/
theorem c4_failed_cycle (st : QState) (m : String) (now : Int)
    (j : ExportJob) (cp : String)
    (hj : (claimNext st).1 = some j)
    (hgif : j.export_type = "gif")
    (hcast : castOf st j.recording_id = some cp) :
    (processNext (AggResult.exitErr m) now st).db = st.db ∧
      (processNext (AggResult.exitErr m) now st).queue =
        updRow j.id
          (fun k =>
            { k with
                status := "failed", error := some ("agg failed: " ++ m) })
          st.queue := by
  have hsel : selectNext st = some j := by
    rw [← claimNext_fst, hj]
  have hclaim := claimNext_eq_of_selectNext st j hsel
  unfold processNext
  rw [hclaim]
  simp only [hgif, if_pos, hcast, generate_gif]
  exact ⟨trivial, markFailed_markProcessing _ _ _⟩

/-- **C4 witness**: the failing-render cycle on a concrete one-job state. -/
theorem c4_witness :
    ((claimNext (QState.mk [rowAXB] [jobA])).1 = some jobA ∧
      jobA.export_type = "gif" ∧
      castOf (QState.mk [rowAXB] [jobA]) jobA.recording_id =
        some "r1.cast") ∧
    ((processNext (AggResult.exitErr "x") 3
        (QState.mk [rowAXB] [jobA])).db = [rowAXB] ∧
      (processNext (AggResult.exitErr "x") 3
          (QState.mk [rowAXB] [jobA])).queue =
        updRow jobA.id
          (fun k =>
            { k with
                status := "failed", error := some ("agg failed: " ++ "x") })
          [jobA]) :=
  ⟨⟨by decide, by decide, by decide⟩,
    c4_failed_cycle (QState.mk [rowAXB] [jobA]) "x" 3 jobA "r1.cast"
      (by decide) (by decide) (by decide)⟩

/-- **C10.** A claimed job whose kind is not `gif` is marked `done` with
`completed_at = now` in that same cycle; the result does not depend on the
external render outcome (no rendering step runs) and the recordings table
is untouched. -/
theorem c10_non_gif_done (st : QState) (agg : AggResult) (now : Int)
    (j : ExportJob)
    (hj : (claimNext st).1 = some j)
    (hng : ¬(j.export_type = "gif")) :
    (processNext agg now st).db = st.db ∧
      (processNext agg now st).queue =
        updRow j.id
          (fun k => { k with status := "done", completed_at := some now })
          st.queue := by
  have hsel : selectNext st = some j := by
    rw [← claimNext_fst, hj]
  have hclaim := claimNext_eq_of_selectNext st j hsel
  unfold processNext
  rw [hclaim]
  simp only [if_neg hng]
  exact ⟨trivial, markDone_markProcessing _ _ _⟩

/-- **C10 witness** at a claimed `cast` job. -/
theorem c10_witness :
    ((claimNext (QState.mk [rowAXB]
        [{ jobA with export_type := "cast" }])).1 =
          some { jobA with export_type := "cast" } ∧
      ¬({ jobA with export_type := "cast" }.export_type = "gif")) ∧
    ((processNext AggResult.exit0 42
        (QState.mk [rowAXB] [{ jobA with export_type := "cast" }])).db =
        [rowAXB] ∧
      (processNext AggResult.exit0 42
          (QState.mk [rowAXB] [{ jobA with export_type := "cast" }])).queue =
        updRow { jobA with export_type := "cast" }.id
          (fun k => { k with status := "done", completed_at := some 42 })
          [{ jobA with export_type := "cast" }]) :=
  ⟨⟨by decide, by decide⟩,
    c10_non_gif_done
      (QState.mk [rowAXB] [{ jobA with export_type := "cast" }])
      AggResult.exit0 42 { jobA with export_type := "cast" }
      (by decide) (by decide)⟩

theorem updRow_ids (jid : Nat) (g : ExportJob → ExportJob)
    (hg : ∀ k, (g k).id = k.id) (q : List ExportJob) :
    (updRow jid g q).map (fun k => k.id) = q.map (fun k => k.id) := by
  unfold updRow
  rw [List.map_map]
  apply List.map_congr_left
  intro k _
  by_cases h : k.id = jid
  · simp [h, hg k]
  · simp [h]

theorem mem_updRow_of_id_ne (jid : Nat) (g : ExportJob → ExportJob)
    (q : List ExportJob) (j : ExportJob) (hj : j ∈ q)
    (hne : ¬(j.id = jid)) : j ∈ updRow jid g q :=
  List.mem_map.mpr ⟨j, hj, by rw [if_neg hne]⟩

theorem updateGifDb_ids (rid gp : String) (db : List RecordingRow) :
    (updateGifDb rid gp db).map (fun r => r.id) = db.map (fun r => r.id) := by
  unfold updateGifDb
  rw [List.map_map]
  apply List.map_congr_left
  intro r _
  by_cases h : r.id = rid
  · simp [h]
  · simp [h]

theorem claimNext_eq_of_selectNext_none (st : QState)
    (hsel : selectNext st = none) : claimNext st = (none, st) := by
  unfold claimNext
  rw [hsel]

theorem selectNext_mem (st : QState) (k : ExportJob)
    (h : selectNext st = some k) :
    k ∈ st.queue ∧ joinedPending st k = true := by
  unfold selectNext at h
  have hk : k ∈ List.insertionSort caAsc
      (st.queue.filter (joinedPending st)) := by
    cases hs : List.insertionSort caAsc (st.queue.filter (joinedPending st))
      with
    | nil =>
        rw [hs] at h
        exact absurd h (by simp)
    | cons a t =>
        rw [hs] at h
        simp only [List.head?_cons, Option.some.injEq] at h
        rw [← h]
        exact List.mem_cons_self a t
  exact List.mem_filter.mp ((List.mem_insertionSort caAsc).mp hk)

/-- Shape of one worker cycle: it is either a no-op (no claimable job), or
it rewrites exactly the claimed job's queue row through an id-preserving
update while the recordings table keeps exactly its row ids. -/
theorem processNext_shape (a : AggResult) (t : Int) (st : QState) :
    processNext a t st = st ∨
    ∃ k, selectNext st = some k ∧
      (processNext a t st).db.map (fun r => r.id) =
        st.db.map (fun r => r.id) ∧
      ∃ g, (∀ x, (g x).id = x.id) ∧
        (processNext a t st).queue = updRow k.id g st.queue := by
  cases hsel : selectNext st with
  | none =>
      left
      unfold processNext
      rw [claimNext_eq_of_selectNext_none st hsel]
  | some k =>
      right
      refine ⟨k, rfl, ?_⟩
      have hclaim := claimNext_eq_of_selectNext st k hsel
      by_cases hgif : k.export_type = "gif"
      · cases hcast : castOf st k.recording_id with
        | none =>
            have hres : processNext a t st =
                { db := st.db,
                  queue := markFailed noneCastMsg k.id
                    (markProcessing k.id st.queue) } := by
              unfold processNext
              rw [hclaim]
              simp only [hgif, if_pos, hcast]
            rw [hres]
            exact ⟨rfl,
              (fun x =>
                { x with status := "failed", error := some noneCastMsg }),
              (fun _ => rfl), markFailed_markProcessing _ _ _⟩
        | some cp =>
            cases a with
            | exitErr m =>
                have hres : processNext (AggResult.exitErr m) t st =
                    { db := st.db,
                      queue := markFailed ("agg failed: " ++ m) k.id
                        (markProcessing k.id st.queue) } := by
                  unfold processNext
                  rw [hclaim]
                  simp only [hgif, if_pos, hcast, generate_gif]
                rw [hres]
                exact ⟨rfl,
                  (fun x =>
                    { x with
                        status := "failed",
                        error := some ("agg failed: " ++ m) }),
                  (fun _ => rfl), markFailed_markProcessing _ _ _⟩
            | exit0 =>
                have hres : processNext AggResult.exit0 t st =
                    { db := updateGifDb k.recording_id
                        (withSuffix cp ".gif") st.db,
                      queue := markDone t k.id
                        (markProcessing k.id st.queue) } := by
                  unfold processNext
                  rw [hclaim]
                  simp only [hgif, if_pos, hcast, generate_gif]
                rw [hres]
                exact ⟨updateGifDb_ids _ _ _,
                  (fun x =>
                    { x with status := "done", completed_at := some t }),
                  (fun _ => rfl), markDone_markProcessing _ _ _⟩
      · have hres : processNext a t st =
            { db := st.db,
              queue := markDone t k.id (markProcessing k.id st.queue) } := by
          unfold processNext
          rw [hclaim]
          simp only [if_neg hgif]
        rw [hres]
        exact ⟨rfl,
          (fun x => { x with status := "done", completed_at := some t }),
          (fun _ => rfl), markDone_markProcessing _ _ _⟩

/-- The orphan invariant: a pending job whose recording id matches no row
survives one worker cycle untouched, the table still has no such row, and
queue ids stay distinct. -/
theorem orphan_step (j : ExportJob) (a : AggResult) (t : Int) (st : QState)
    (hj : j ∈ st.queue)
    (horph : ∀ r ∈ st.db, ¬(r.id = j.recording_id))
    (hnd : (st.queue.map (fun k => k.id)).Nodup) :
    j ∈ (processNext a t st).queue ∧
      (∀ r ∈ (processNext a t st).db, ¬(r.id = j.recording_id)) ∧
      ((processNext a t st).queue.map (fun k => k.id)).Nodup := by
  rcases processNext_shape a t st with heq | ⟨k, hsel, hdb, g, hg, hq⟩
  · rw [heq]
    exact ⟨hj, horph, hnd⟩
  · obtain ⟨hkmem, hkjp⟩ := selectNext_mem st k hsel
    have hkrec : ∃ r ∈ st.db, r.id = k.recording_id := by
      have := (Bool.and_eq_true _ _).mp hkjp
      obtain ⟨r, hr, hrid⟩ := List.any_eq_true.mp this.2
      exact ⟨r, hr, of_decide_eq_true hrid⟩
    have hne : ¬(j.id = k.id) := by
      intro hid
      have hjk : j = k :=
        List.inj_on_of_nodup_map hnd hj hkmem hid
      obtain ⟨r, hr, hrid⟩ := hkrec
      exact horph r hr (hjk ▸ hrid)
    refine ⟨?_, ?_, ?_⟩
    · rw [hq]
      exact mem_updRow_of_id_ne k.id g st.queue j hj hne
    · intro r hr hrid
      have hrin : r.id ∈ (processNext a t st).db.map (fun x => x.id) :=
        List.mem_map.mpr ⟨r, hr, rfl⟩
      rw [hdb] at hrin
      obtain ⟨r₀, hr₀, hr₀id⟩ := List.mem_map.mp hrin
      exact horph r₀ hr₀ (by rw [hr₀id, hrid])
    · rw [hq, updRow_ids k.id g hg]
      exact hnd

theorem runCycles_orphan (j : ExportJob) (params : List (AggResult × Int)) :
    ∀ st : QState, j ∈ st.queue →
      (∀ r ∈ st.db, ¬(r.id = j.recording_id)) →
      (st.queue.map (fun k => k.id)).Nodup →
      j ∈ (runCycles params st).queue ∧
        (∀ r ∈ (runCycles params st).db, ¬(r.id = j.recording_id)) ∧
        ((runCycles params st).queue.map (fun k => k.id)).Nodup := by
  induction params with
  | nil =>
      intro st hj horph hnd
      exact ⟨hj, horph, hnd⟩
  | cons p rest ih =>
      intro st hj horph hnd
      obtain ⟨a, t⟩ := p
      obtain ⟨h₁, h₂, h₃⟩ := orphan_step j a t st hj horph hnd
      exact ih (processNext a t st) h₁ h₂ h₃

/-- **C9.** `delete_recording` removes only the `recordings` row: the queue
is untouched, and a pending export job for the deleted recording id is
still in the queue — the same untouched pending row — after any sequence of
worker cycles, and the claim step of the next cycle can never return it
(its `JOIN recordings` finds no row), so it stays `pending` forever. -/
theorem c9_orphan_pending_forever (st : QState) (j : ExportJob)
    (params : List (AggResult × Int))
    (hj : j ∈ st.queue) (hpend : j.status = "pending")
    (hnd : (st.queue.map (fun k => k.id)).Nodup) :
    (QState.mk (delete_recording j.recording_id st.db).2 st.queue).queue =
        st.queue ∧
      j ∈ (runCycles params
        (QState.mk (delete_recording j.recording_id st.db).2
          st.queue)).queue ∧
      j.status = "pending" ∧
      selectNext (runCycles params
        (QState.mk (delete_recording j.recording_id st.db).2 st.queue)) ≠
          some j := by
  have horph : ∀ r ∈ (delete_recording j.recording_id st.db).2,
      ¬(r.id = j.recording_id) := by
    intro r hr
    unfold delete_recording at hr
    have := (List.mem_filter.mp hr).2
    simpa using this
  obtain ⟨h₁, h₂, _⟩ := runCycles_orphan j params
    (QState.mk (delete_recording j.recording_id st.db).2 st.queue)
    hj horph hnd
  refine ⟨rfl, h₁, hpend, ?_⟩
  intro hsel
  obtain ⟨_, hjp⟩ := selectNext_mem _ j hsel
  have := (Bool.and_eq_true _ _).mp hjp
  obtain ⟨r, hr, hrid⟩ := List.any_eq_true.mp this.2
  exact h₂ r hr (of_decide_eq_true hrid)

/-- A recordings row with the id the orphaned job references, present
before deletion. -/
def rowGhost : RecordingRow := { rowAXB with id := "ghost" }

/-- **C9 witness** at a concrete one-row, one-job state and one cycle. -/
theorem c9_witness :
    (jobOrphan ∈ (QState.mk [rowGhost] [jobOrphan]).queue ∧
      jobOrphan.status = "pending" ∧
      ((QState.mk [rowGhost] [jobOrphan]).queue.map
        (fun k => k.id)).Nodup) ∧
    ((QState.mk
        (delete_recording jobOrphan.recording_id [rowGhost]).2
        [jobOrphan]).queue = [jobOrphan] ∧
      jobOrphan ∈ (runCycles [(AggResult.exit0, 1)]
        (QState.mk (delete_recording jobOrphan.recording_id [rowGhost]).2
          [jobOrphan])).queue ∧
      jobOrphan.status = "pending" ∧
      selectNext (runCycles [(AggResult.exit0, 1)]
        (QState.mk (delete_recording jobOrphan.recording_id [rowGhost]).2
          [jobOrphan])) ≠ some jobOrphan) :=
  ⟨⟨by decide, by decide, by decide⟩,
    c9_orphan_pending_forever (QState.mk [rowGhost] [jobOrphan]) jobOrphan
      [(AggResult.exit0, 1)] (by decide) (by decide) (by decide)⟩

/-! ## IPC status server (`server.py`) -/

/-- `str()` of the `action` field inside the f-string
`f"Unknown action: {action}"`: a missing key (`message.get` returning
`None`) prints as `None`. -/
def pyOptStr : Option String → String
  | none => "None"
  | some s => s

/-- A decoded request message: the fields `_process_message` reads via
`message.get`, with the defaults it supplies (`limit` 50, `offset` 0,
`failed_only` false, `dry_run` false; `action`, `id` and `cwd` default to
`None`). -/
structure Msg where
  action : Option String := none
  id : Option String := none
  limit : Nat := 50
  offset : Nat := 0
  failed_only : Bool := false
  cwd : Option String := none
  dry_run : Bool := false
  deriving Repr, DecidableEq

/-- Everything a `StatusServer` connection can read or write: the store
tables, the recordings tree, the retention knobs and the clock second used
by an on-demand cleanup. -/
structure ServerState where
  db : List RecordingRow
  fs : Fs
  cfg : RetentionCfg
  now : Int

/-- `Indexer.get_stats`: total row count and count of rows with
`exit_code != 0` (NULL exit codes satisfy neither SQL comparison). -/
def get_stats (db : List RecordingRow) : Nat × Nat :=
  (db.length,
    (db.filter (fun r => match r.exit_code with
      | some c => c != 0
      | none => false)).length)

/-- The `get` branch of `_process_message`: look the identifier up as a
primary recording id first and as an atuin id only when that finds
nothing; a missing `id` field binds NULL, which matches no row in either
query. -/
def lookup_recording (mid : Option String) (db : List RecordingRow) :
    Option RecordingRow :=
  match mid with
  | none => none
  | some i =>
      match get_by_id i db with
      | some r => some r
      | none => get_by_atuin_id i db

/-- The response object `_handle_client` serializes as one line of JSON. -/
inductive Response where
  | statusResp (total_count failed_count : Nat)
  | listResp (recordings : List RecordingRow)
  | getResp (recording : Option RecordingRow)
  | cleanupResp (totals : CleanupTotals)
  | errorResp (msg : String)
  deriving Repr, DecidableEq

/-- `StatusServer._process_message`: dispatch on the `action` field;
`status`, `list` and `get` read the store, `cleanup` runs the retention
pass synchronously (mutating the store unless `dry_run`), and every other
action — a missing one included — answers
`{"error": f"Unknown action: {action}"}`. -/
def process_message (st : ServerState) (m : Msg) :
    Response × ServerState :=
  if m.action = some "status" then
    (Response.statusResp (get_stats st.db).1 (get_stats st.db).2, st)
  else if m.action = some "list" then
    (Response.listResp
      (list_recordings st.db m.limit m.offset m.failed_only m.cwd), st)
  else if m.action = some "get" then
    (Response.getResp (lookup_recording m.id st.db), st)
  else if m.action = some "cleanup" then
    let res := run_cleanup st.cfg st.now m.dry_run
      { db := st.db, fs := st.fs }
    (Response.cleanupResp res.1, { st with db := res.2.db, fs := res.2.fs })
  else
    (Response.errorResp ("Unknown action: " ++ pyOptStr m.action), st)

/-- `StatusServer._handle_client` for one connection: `inp` is the outcome
of reading a line and decoding it (`json.loads` plus field extraction);
the body is a total function of it, so exactly one response is written and
the `finally` block always closes the connection — a raised exception `e`
(malformed JSON included) is caught and answered as `{"error": str(e)}`. -/
def handle_client (st : ServerState) (inp : Except String Msg) :
    Response × ServerState :=
  match inp with
  | .error e => (Response.errorResp e, st)
  | .ok m => process_message st m

/-- **C6.** Every connection gets exactly one response (`handle_client` is
total): an action outside status/list/get/cleanup — a missing action
included — yields `{"error": "Unknown action: <action>"}` with the state
untouched, and a decoding exception yields `{"error": "<message>"}` with
the state untouched; no input aborts without a response. -/
theorem c6_one_error_response (st : ServerState) (m : Msg) (e : String)
    (hact : ¬(m.action = some "status") ∧ ¬(m.action = some "list") ∧
      ¬(m.action = some "get") ∧ ¬(m.action = some "cleanup")) :
    handle_client st (Except.ok m) =
      (Response.errorResp ("Unknown action: " ++ pyOptStr m.action), st) ∧
    handle_client st (Except.error e) = (Response.errorResp e, st) := by
  obtain ⟨h₁, h₂, h₃, h₄⟩ := hact
  constructor
  · show process_message st m = _
    unfold process_message
    rw [if_neg h₁, if_neg h₂, if_neg h₃, if_neg h₄]
  · rfl

/-- **C6 witness** at the action string `bogus` and a malformed-JSON
message. -/
theorem c6_witness :
    let st : ServerState :=
      { db := [rowAXB], fs := [], cfg := cfgEx, now := 0 }
    let m : Msg := { action := some "bogus" }
    (¬(m.action = some "status") ∧ ¬(m.action = some "list") ∧
      ¬(m.action = some "get") ∧ ¬(m.action = some "cleanup")) ∧
    (handle_client st (Except.ok m) =
      (Response.errorResp ("Unknown action: " ++ pyOptStr m.action), st) ∧
     handle_client st
        (Except.error "Expecting value: line 1 column 1 (char 0)") =
       (Response.errorResp "Expecting value: line 1 column 1 (char 0)",
        st)) :=
  ⟨⟨by decide, by decide, by decide, by decide⟩,
    c6_one_error_response
      { db := [rowAXB], fs := [], cfg := cfgEx, now := 0 }
      { action := some "bogus" }
      "Expecting value: line 1 column 1 (char 0)"
      ⟨by decide, by decide, by decide, by decide⟩⟩

/-- **C8.** A `get` request tries the identifier as a primary recording id
first; only when that finds nothing does it try it as an atuin id; and
when both lookups miss, the response is the explicit absent marker
`{"recording": null}` — not an error. -/
theorem c8_get_primary_then_atuin (st : ServerState) (m : Msg) (i : String)
    (hact : m.action = some "get") (hid : m.id = some i) :
    (∀ r, get_by_id i st.db = some r →
      (process_message st m).1 = Response.getResp (some r)) ∧
    (get_by_id i st.db = none →
      (process_message st m).1 =
        Response.getResp (get_by_atuin_id i st.db)) ∧
    (get_by_id i st.db = none → get_by_atuin_id i st.db = none →
      (process_message st m).1 = Response.getResp none) := by
  have hresp : (process_message st m).1 =
      Response.getResp (lookup_recording m.id st.db) := by
    unfold process_message
    rw [if_neg (by simp [hact]), if_neg (by simp [hact]), if_pos hact]
  refine ⟨?_, ?_, ?_⟩
  · intro r hr
    rw [hresp, hid]
    simp [lookup_recording, hr]
  · intro hnone
    rw [hresp, hid]
    simp [lookup_recording, hnone]
  · intro hnone hatuin
    rw [hresp, hid]
    simp [lookup_recording, hnone, hatuin]

/-- **C8 witness** at a store holding one recording, looked up by its
primary id. -/
theorem c8_witness :
    let st : ServerState :=
      { db := [rowAXB], fs := [], cfg := cfgEx, now := 0 }
    let m : Msg := { action := some "get", id := some "r1" }
    (m.action = some "get" ∧ m.id = some "r1") ∧
    ((∀ r, get_by_id "r1" st.db = some r →
        (process_message st m).1 = Response.getResp (some r)) ∧
      (get_by_id "r1" st.db = none →
        (process_message st m).1 =
          Response.getResp (get_by_atuin_id "r1" st.db)) ∧
      (get_by_id "r1" st.db = none → get_by_atuin_id "r1" st.db = none →
        (process_message st m).1 = Response.getResp none)) :=
  ⟨⟨by decide, by decide⟩,
    c8_get_primary_then_atuin
      { db := [rowAXB], fs := [], cfg := cfgEx, now := 0 }
      { action := some "get", id := some "r1" } "r1"
      (by decide) (by decide)⟩

end TermRecord
